import Mathlib

/-!
Verification of `google/colab/drive.py` (the `mount` function).

The Python code drives an interactive `/bin/bash` session through `pexpect`:
it spawns the shell with a fresh environment, sets a unique prompt marker,
force-unmounts the target and kills stale `drive` binaries, validates the
mountpoint, installs a background success watcher, launches the `drive`
binary, loops on `expect` reacting to the success marker / the prompt
marker / an authorization-URL pattern, and finally suspends, backgrounds,
disowns and exits, asserting a clean shell exit status.

The shallow embedding below models:
  * all Python strings as `List Char`;
  * the filesystem and OS environment as oracle functions in a `World`;
  * the pty output of the spawned shell as a script of `Chunk`s;
  * `pexpect`'s `expect` as incremental buffered earliest-position pattern
    search over that script (`expect`);
  * `mount` itself as a pure function returning a result and a trace of
    the externally visible events (commands sent, processes spawned,
    messages printed, forced terminations, getpass invocations).
-/

set_option maxHeartbeats 1000000
set_option maxRecDepth 8192

namespace GDrive

/-- Externally visible events performed by `mount`, in program order. -/
inductive Ev where
  | makedirs (path : List Char)
  | spawn (env : List (List Char × List Char))
  | setLogRead
  | sendline (s : List Char)
  | send (s : List Char)
  | sendcontrol (c : Char)
  | getpass (msg : List Char)
  | terminateForce
  | print (msg : List Char)
deriving DecidableEq

/-- Outcome of a run of `mount`: normal return paths and each distinct
exception path of the Python code. -/
inductive Res where
  | alreadyMounted
  | ok
  | valueError (msg : List Char)
  | timeoutErr
  | eofErr
  | assertAliveFail
  | assertStatusFail
  | fuelOut
deriving DecidableEq

/-- One unit of pty output from the spawned shell, or end of stream. -/
inductive Chunk where
  | data (s : List Char)
  | eofMark
deriving DecidableEq

/-- A pattern handed to `expect`: a plain string, the authorization-URL
regular expression of line 123, or `pexpect.EOF`. -/
inductive Pat where
  | lit (s : List Char)
  | url
  | eofPat
deriving DecidableEq

/-- Filesystem oracle: the `os.path` / `os.listdir` predicates that
`mount` consults. `nonemptyDir p` models `_os.listdir(p)` being a
non-empty list. -/
structure FS where
  islink : List Char → Bool
  isdir : List Char → Bool
  pexists : List Char → Bool
  nonemptyDir : List Char → Bool

/-- The ambient state a run of `mount` interacts with: environment
variables, the two filesystem snapshots (at entry, and at validation time
after the unmount/pkill cleanup), the output script of the spawned shell,
the secrets typed at `getpass` prompts, and the shell's final liveness and
exit status. -/
structure World where
  envHome : List Char
  rootDir : List Char
  hostname : List Char
  uuidHex : List Char
  fs0 : FS
  makedirsFails : Bool
  fs1 : FS
  chunks : List Chunk
  secrets : List (List Char)
  exitAlive : Bool
  exitstatus : Option Int

/-- First index at which `pat` occurs as a contiguous substring of `hay`
(`none` if it does not occur). Mirrors regex search for a literal. -/
def litIdx? (hay pat : List Char) : Option Nat :=
  if pat.isPrefixOf hay then some 0
  else
    match hay with
    | [] => none
    | _ :: t => (litIdx? t pat).map (· + 1)

/-- `pat` occurs somewhere in `hay`. -/
def hasSubstr (hay pat : List Char) : Bool :=
  (litIdx? hay pat).isSome

/-- The literal part of the authorization-URL regular expression
`(Go to this URL in a browser: https://.*)\r\n` from line 123. -/
def urlPrefixL : List Char := "Go to this URL in a browser: https://".data

/-- Semantics of the `.*\r\n` tail of the URL regex at a fixed start:
`.` does not match a newline, `.*` is greedy, so the match succeeds
exactly when the first newline in the remaining text is preceded by a
carriage return; it returns the text consumed by `.*` and the text after
the `\r\n`. -/
def dotStarCRLF : List Char → Option (List Char × List Char)
  | [] => none
  | c :: rest =>
    if c = '\n' then none
    else if c = '\r' ∧ rest.head? = some '\n' then some ([], rest.tail)
    else (dotStarCRLF rest).map (fun p => (c :: p.1, p.2))

/-- Try the authorization-URL regex at exactly the start of `hay`, with
`i` the absolute position of that start in the stream buffer: the literal
part must be a prefix and the `.*\r\n` tail must match after it. Returns
absolute start, capture group 1, absolute end of the full match. -/
def urlHere (hay : List Char) (i : Nat) : Option (Nat × List Char × Nat) :=
  if urlPrefixL.isPrefixOf hay then
    (dotStarCRLF (hay.drop urlPrefixL.length)).map
      (fun g => (i, urlPrefixL ++ g.1, i + urlPrefixL.length + g.1.length + 2))
  else none

/-- Search for the authorization-URL regex in `hay` at the earliest
possible start position, `i` being the absolute position of the head of
`hay` in the stream buffer. -/
def urlSearch : List Char → Nat → Option (Nat × List Char × Nat)
  | [], i => urlHere [] i
  | c :: t, i =>
    match urlHere (c :: t) i with
    | some r => some r
    | none => urlSearch t (i + 1)

/-- Match one pattern against the current buffer: start position, end
position (first unconsumed index) and capture group 1. `eofPat` never
matches buffered data. -/
def patMatch? (buffer : List Char) : Pat → Option (Nat × Nat × List Char)
  | .lit s => (litIdx? buffer s).map (fun i => (i, i + s.length, []))
  | .url => (urlSearch buffer 0).map (fun r => (r.1, r.2.2, r.2.1))
  | .eofPat => none

/-- Combine a candidate match (pattern index, start, end, group) with the
best match found later in the pattern list: a strictly earlier stream
start position wins, ties keep the earlier pattern. -/
def better (a b : Option (Nat × Nat × Nat × List Char)) :
    Option (Nat × Nat × Nat × List Char) :=
  match a, b with
  | none, b => b
  | some x, none => some x
  | some x, some y => if y.2.1 < x.2.1 then some y else some x

/-- Choose among per-pattern match results the one starting earliest in
the stream, ties resolved in favour of the earlier pattern in the list
(pexpect's `searcher_re` behaviour). Returns pattern index, start, end,
capture group. -/
def pickEarliest : Nat → List (Option (Nat × Nat × List Char)) →
    Option (Nat × Nat × Nat × List Char)
  | _, [] => none
  | i, r :: rs => better (r.map (fun x => (i, x))) (pickEarliest (i + 1) rs)

/-- Result of one `expect` call. -/
inductive XRes where
  | matched (idx : Nat) (group1 : List Char) (buffer : List Char) (chunks : List Chunk)
  | timedOut
  | eofFail
deriving DecidableEq

/-- Dispatch on the result of the buffer search: a match consumes the
buffer through its end position, otherwise the supplied fallback runs. -/
def onPick (buffer : List Char) (chunks : List Chunk) (fallback : XRes) :
    Option (Nat × Nat × Nat × List Char) → XRes
  | some r => .matched r.1 r.2.2.2 (buffer.drop r.2.2.1) chunks
  | none => fallback

/-- `pexpect`'s `expect`: scan the retained buffer for the earliest match
among the patterns; if none, read the next chunk of pty output and retry;
at end of stream match `eofPat` if supplied, else raise EOF; if the
script is exhausted without a match, raise TIMEOUT. On a match, consume
the buffer through the end of the match. -/
def expect (pats : List Pat) (buffer : List Char) : List Chunk → XRes
  | [] => onPick buffer [] .timedOut (pickEarliest 0 (pats.map (patMatch? buffer)))
  | ck :: rest =>
    onPick buffer (ck :: rest)
      (match ck with
       | .data s => expect pats (buffer ++ s) rest
       | .eofMark =>
         match pats.findIdx? (fun p => p = Pat.eofPat) with
         | some i => .matched i [] buffer rest
         | none => .eofFail)
      (pickEarliest 0 (pats.map (patMatch? buffer)))

/-- `os.path.join` for two components (POSIX): an absolute second
component replaces the first; otherwise a separator is inserted unless
the first is empty or already ends in one. -/
def pjoin (a b : List Char) : List Char :=
  if b.head? = some '/' then b
  else if a = [] ∨ a.getLast? = some '/' then a ++ b
  else a ++ '/' :: b

/-- Remove trailing slashes (CPython `userhome.rstrip('/')`). -/
def rstripSlash (l : List Char) : List Char :=
  (l.reverse.dropWhile (fun c => c == '/')).reverse

/-- `os.path.expanduser` for the bare leading `~` form: a path `~` or
`~/rest` becomes `HOME` (stripped of trailing slashes) followed by the
rest, with `/` as result if that is empty. A `~user` form consults the
pwd database, which is outside this program; following CPython's
unknown-user behaviour the path is returned unchanged. Paths without a
leading `~` are returned unchanged. -/
def expanduserL (home p : List Char) : List Char :=
  match p with
  | '~' :: rest =>
    if rest = [] ∨ rest.head? = some '/' then
      let r := rstripSlash home ++ rest
      if r = [] then ['/'] else r
    else p
  | _ => p

/-- `s.split(pat)[0]`: the text before the first occurrence of `pat`
(all of `s` when `pat` does not occur). -/
def takeBefore (hay pat : List Char) : List Char :=
  match litIdx? hay pat with
  | some i => hay.take i
  | none => hay

/-- The unique prompt marker of line 67:
`'root@{}-{}: '.format(socket.gethostname(), uuid.uuid4().hex)`. -/
def promptOf (w : World) : List Char :=
  "root@".data ++ w.hostname ++ "-".data ++ w.uuidHex ++ ": ".data

/-- The success marker string of line 105. -/
def successL : List Char := "google.colab.drive MOUNTED".data

def myDriveL : List Char := "My Drive".data

def pkillL : List Char := "pkill".data

def stoppedL : List Char := "Stopped".data

/-- The default PATH of line 48. -/
def pathConstL : List Char :=
  "/usr/local/bin:/usr/local/sbin:/usr/bin:/usr/sbin:/bin:/sbin:.".data

/-- Line 81: `'export PS1="{}"'.format(prompt)`. -/
def ps1Cmd (p : List Char) : List Char :=
  "export PS1=\"".data ++ p ++ "\"".data

/-- Lines 87-88: the cleanup command. -/
def umountCmd (m : List Char) : List Char :=
  "umount -f ".data ++ m ++ " || umount ".data ++ m ++ "; pkill -9 -x drive".data

/-- Lines 106-109: the background success-watcher command. -/
def watcherCmd (m : List Char) : List Char :=
  "( while `sleep 0.5`; do if [[ -d \"".data ++ m ++ "\" && \"$(ls -A ".data ++ m
    ++ ")\" != \"\" ]]; then echo \"".data ++ successL ++ "\"; break; fi; done ) &".data

/-- Lines 113-118: the drive binary launch command. -/
def driveCmd (dd inet m : List Char) : List Char :=
  dd ++ "/drive --features=opendir_timeout_ms:15000,virtual_folders:true --inet_family=".data
    ++ inet ++ " --preferences=trusted_root_certs_file_path:".data ++ dd
    ++ "/roots.pem,mount_point_path:".data ++ m ++ " --console_auth".data

/-- Line 137: the background-disown-exit command. -/
def bgCmd : List Char := "bg; disown; exit".data

/-- Line 133: the text appended to the captured URL to form the getpass
message (and, through variable reuse, the next watched prompt pattern). -/
def authSuffixL : List Char := "\n\nEnter your authorization code:\n".data

/-- Line 141: the success message. -/
def mountedMsg (m : List Char) : List Char := "Mounted at ".data ++ m

/-- Lines 39-41: the idempotent already-mounted message. -/
def alreadyMsg (m : List Char) : List Char :=
  "Drive already mounted at ".data ++ m
    ++ "; to attempt to forcibly remount, call drive.mount(\"".data ++ m
    ++ "\", force_remount=True).".data

/-- Line 60: the config-directory error message. -/
def cfgMsg (cfg : List Char) : List Char :=
  cfg ++ " must be a directory if present".data

def symlinkMsg : List Char := "Mountpoint must not be a symlink".data

def filesMsg : List Char := "Mountpoint must not already contain files".data

def notDirMsg : List Char := "Mountpoint must either be a directory or not exist".data

def mountFailedMsg : List Char := "mount failed".data

/-- Lines 81-102: set the prompt marker and synchronize twice, send the
unmount/pkill cleanup, synchronize on the echoed `pkill` and the prompt,
then validate the mountpoint (symlink / populated directory / non-directory
entry), force-terminating the session on a validation failure. Returns
either the failure with the events so far, or the stream state and the
events of this phase. -/
def phaseSetup (w : World) (p m : List Char) :
    (Res × List Ev) ⊕ ((List Char × List Chunk) × List Ev) :=
  let t0 := [Ev.sendline (ps1Cmd p)]
  match expect [Pat.lit p] [] w.chunks with
  | .timedOut => .inl (.timeoutErr, t0)
  | .eofFail => .inl (.eofErr, t0)
  | .matched _ _ b1 c1 =>
    match expect [Pat.lit p] b1 c1 with
    | .timedOut => .inl (.timeoutErr, t0)
    | .eofFail => .inl (.eofErr, t0)
    | .matched _ _ b2 c2 =>
      let t1 := t0 ++ [Ev.sendline (umountCmd m)]
      match expect [Pat.lit pkillL] b2 c2 with
      | .timedOut => .inl (.timeoutErr, t1)
      | .eofFail => .inl (.eofErr, t1)
      | .matched _ _ b3 c3 =>
        match expect [Pat.lit p] b3 c3 with
        | .timedOut => .inl (.timeoutErr, t1)
        | .eofFail => .inl (.eofErr, t1)
        | .matched _ _ b4 c4 =>
          if w.fs1.islink m then
            .inl (.valueError symlinkMsg, t1 ++ [Ev.terminateForce])
          else if w.fs1.isdir m && w.fs1.nonemptyDir m then
            .inl (.valueError filesMsg, t1 ++ [Ev.terminateForce])
          else if !w.fs1.isdir m && w.fs1.pexists m then
            .inl (.valueError notDirMsg, t1 ++ [Ev.terminateForce])
          else .inr ((b4, c4), t1)

/-- Lines 104-118: install the background success watcher, synchronize on
the prompt, and launch the drive binary. -/
def phaseLaunch (p m dd inet : List Char) (st : List Char × List Chunk) :
    (Res × List Ev) ⊕ ((List Char × List Chunk) × List Ev) :=
  let t0 := [Ev.sendline (watcherCmd m)]
  match expect [Pat.lit p] st.1 st.2 with
  | .timedOut => .inl (.timeoutErr, t0)
  | .eofFail => .inl (.eofErr, t0)
  | .matched _ _ b c => .inr ((b, c), t0 ++ [Ev.sendline (driveCmd dd inet m)])

/-- Result of the await-outcome loop of lines 120-134. -/
inductive AwaitOut where
  | done (buffer : List Char) (chunks : List Chunk) (evs : List Ev)
  | failed (evs : List Ev)
  | errOut (e : Res) (evs : List Ev)
deriving DecidableEq

/-- Lines 120-134: `while True` watching for the success marker (index 0),
the current value of the `prompt` variable (index 1: force-terminate and
fail), or the authorization-URL pattern (index 2: prompt for the secret
and send it, reassigning `prompt` to the getpass message exactly as the
Python does at line 133). The Python loop has no iteration bound; here it
is run with enough fuel to consume the whole remaining script, so the
fuel-out case is unreachable for every script. -/
def awaitLoop (w : World) (fuel : Nat) (p : List Char) (k : Nat)
    (buffer : List Char) (chunks : List Chunk) : AwaitOut :=
  match fuel with
  | 0 => .errOut .fuelOut []
  | fuel + 1 =>
    match expect [Pat.lit successL, Pat.lit p, Pat.url] buffer chunks with
    | .timedOut => .errOut .timeoutErr []
    | .eofFail => .errOut .eofErr []
    | .matched idx g b' c' =>
      if idx = 0 then .done b' c' []
      else if idx = 1 then .failed [Ev.terminateForce]
      else
        let msg := g ++ authSuffixL
        let sec := w.secrets.getD k []
        let evs := [Ev.getpass msg, Ev.send (sec ++ ['\n'])]
        match awaitLoop w fuel msg (k + 1) b' c' with
        | .done b2 c2 evs2 => .done b2 c2 (evs ++ evs2)
        | .failed evs2 => .failed (evs ++ evs2)
        | .errOut e evs2 => .errOut e (evs ++ evs2)

/-- Fuel sufficient to exhaust a script. -/
def chunksFuel (c : List Chunk) : Nat :=
  c.foldr (fun ch n => (match ch with | .data s => s.length + 1 | .eofMark => 1) + n) 0

/-- Lines 135-141: suspend the foreground binary, wait for the stopped-job
confirmation, background-disown-exit, wait for end of stream, assert the
shell is dead with exit status zero, and print the success message. -/
def phaseFinish (w : World) (m : List Char) (st : List Char × List Chunk) :
    Res × List Ev :=
  let t0 := [Ev.sendcontrol 'z']
  match expect [Pat.lit stoppedL] st.1 st.2 with
  | .timedOut => (.timeoutErr, t0)
  | .eofFail => (.eofErr, t0)
  | .matched _ _ b c =>
    let t1 := t0 ++ [Ev.sendline bgCmd]
    match expect [Pat.eofPat] b c with
    | .timedOut => (.timeoutErr, t1)
    | .eofFail => (.eofErr, t1)
    | .matched _ _ _ _ =>
      if w.exitAlive then (.assertAliveFail, t1)
      else if w.exitstatus = some 0 then (.ok, t1 ++ [Ev.print (mountedMsg m)])
      else (.assertStatusFail, t1)

/-- Lines 81-141: the whole interaction with the spawned shell. -/
def sessionRun (w : World) (p m dd inet : List Char) : Res × List Ev :=
  match phaseSetup w p m with
  | .inl r => r
  | .inr s1 =>
    match phaseLaunch p m dd inet s1.1 with
    | .inl r2 => (r2.1, s1.2 ++ r2.2)
    | .inr s2 =>
      match awaitLoop w (s2.1.1.length + chunksFuel s2.1.2 + 1) p 0 s2.1.1 s2.1.2 with
      | .errOut e t3 => (e, s1.2 ++ s2.2 ++ t3)
      | .failed t3 => (.valueError mountFailedMsg, s1.2 ++ s2.2 ++ t3)
      | .done b c t3 =>
        ((phaseFinish w m (b, c)).1, s1.2 ++ s2.2 ++ t3 ++ (phaseFinish w m (b, c)).2)

/-- Lines 36-141 of `mount`, after `os.path.expanduser`: the
already-mounted short circuit, environment assembly (with the
sandbox-root rebinding of lines 49-54), the config-directory creation of
lines 55-60, the spawn of the intermediate bash with its replaced
environment, the optional debug echo hook of lines 79-80, and the session
protocol. -/
def mountBody (w : World) (debug : Bool) (m : List Char) (force : Bool) :
    Res × List Ev :=
  if !force && w.fs0.isdir (pjoin m myDriveL) then
    (.alreadyMounted, [Ev.print (alreadyMsg m)])
  else
    let rd := w.rootDir
    let fum := takeBefore w.envHome "mount".data ++ "/mount/alloc/fusermount".data
    let hidp :=
      if rd.length > 1 then
        (pjoin rd w.envHome, "IPV6_ONLY".data,
         fum ++ "/dev/fuse".data, pathConstL ++ ":".data ++ fum ++ "/bin".data)
      else (w.envHome, "IPV4_ONLY".data, "/dev/fuse".data, pathConstL)
    let home := hidp.1
    let inet := hidp.2.1
    let dev := hidp.2.2.1
    let path := hidp.2.2.2
    let cfg := pjoin (pjoin home ".config".data) "Google".data
    if (w.fs0.pexists cfg || w.makedirsFails) && !w.fs0.isdir cfg then
      (.valueError (cfgMsg cfg), [Ev.makedirs cfg])
    else
      let sr := sessionRun w (promptOf w) m (pjoin rd "opt/google/drive".data) inet
      (sr.1,
        [Ev.makedirs cfg,
         Ev.spawn [("HOME".data, home), ("FUSE_DEV_NAME".data, dev), ("PATH".data, path)]]
          ++ (if debug then [Ev.setLogRead] else []) ++ sr.2)

/-- The `mount` entry point (line 32): expand a leading `~` in the
mountpoint and run the body on the expanded path. `debug` models the
`mount._DEBUG` module flag. -/
def mount (w : World) (debug : Bool) (mountpoint : List Char) (force : Bool) :
    Res × List Ev :=
  mountBody w debug (expanduserL w.envHome mountpoint) force

/-- The full pty output line carrying an authorization URL: the literal
regex part, the variable tail of the URL, and the CR-LF terminator. -/
def urlLineOf (u : List Char) : List Char := urlPrefixL ++ u ++ ['\r', '\n']

/-- The config directory `os.path.join(home, '.config', 'Google')` in the
non-sandboxed case where `home` is the HOME environment value. -/
def cfgDirPlain (w : World) : List Char :=
  pjoin (pjoin w.envHome ".config".data) "Google".data

/-- The spawn environment of lines 74-78 in the non-sandboxed case. -/
def spawnEnvPlain (w : World) : List (List Char × List Char) :=
  [("HOME".data, w.envHome), ("FUSE_DEV_NAME".data, "/dev/fuse".data),
   ("PATH".data, pathConstL)]

/-- The debug echo hook marker event. -/
def isLogEv : Ev → Bool
  | .setLogRead => true
  | _ => false

/-- A trace with the debug echo hook marker removed: the protocol-visible
behaviour. -/
def stripLog (t : List Ev) : List Ev := t.filter (fun e => !isLogEv e)

/-! ### Concrete worlds used to exhibit runs -/

/-- A filesystem on which every query is false. -/
def fsNone : FS := ⟨fun _ => false, fun _ => false, fun _ => false, fun _ => false⟩

/-- A base world: HOME `/root`, root dir `/` (not sandboxed), hostname `h`,
uuid hex `abcd`, clean filesystem, shell exiting cleanly. -/
def baseW : World :=
  { envHome := "/root".data, rootDir := "/".data, hostname := "h".data,
    uuidHex := "abcd".data, fs0 := fsNone, makedirsFails := false, fs1 := fsNone,
    chunks := [], secrets := [], exitAlive := false, exitstatus := some 0 }

/-- The prompt marker of `baseW`. -/
def promptC : List Char := "root@h-abcd: ".data

/-- A concrete authorization URL tail. -/
def urlC : List Char := "accounts.google.com/o/oauth2?x=1".data

/-- Session script: prompt sync, cleanup, watcher sync, immediate success,
stop confirmation, end of stream. -/
def wC1 : World :=
  { baseW with chunks :=
      [Chunk.data promptC, Chunk.data promptC, Chunk.data pkillL,
       Chunk.data promptC, Chunk.data promptC, Chunk.data successL,
       Chunk.data stoppedL, Chunk.eofMark] }

/-- Session script with one authorization URL before the success marker. -/
def wC2 : World :=
  { baseW with
    chunks :=
      [Chunk.data promptC, Chunk.data promptC, Chunk.data pkillL,
       Chunk.data promptC, Chunk.data promptC, Chunk.data (urlLineOf urlC),
       Chunk.data successL, Chunk.data stoppedL, Chunk.eofMark]
    secrets := ["s3cret".data] }

/-- Session script in which the prompt marker reappears after an
authorization exchange, and then nothing else arrives. -/
def wC3x : World :=
  { baseW with
    chunks :=
      [Chunk.data promptC, Chunk.data promptC, Chunk.data pkillL,
       Chunk.data promptC, Chunk.data promptC, Chunk.data (urlLineOf urlC),
       Chunk.data promptC]
    secrets := ["s3cret".data] }

/-- Session script in which the prompt marker reappears right after the
launch command, before any authorization event. -/
def wC3a : World :=
  { baseW with chunks :=
      [Chunk.data promptC, Chunk.data promptC, Chunk.data pkillL,
       Chunk.data promptC, Chunk.data promptC, Chunk.data promptC] }

/-- A validation-time filesystem on which `/content/drive` is a symlink. -/
def fsLink : FS := { fsNone with islink := fun s => s == "/content/drive".data }

/-- World whose mountpoint turns out to be a symlink at validation time. -/
def wC4 : World :=
  { baseW with
    fs1 := fsLink
    chunks := [Chunk.data promptC, Chunk.data promptC, Chunk.data pkillL,
      Chunk.data promptC] }

/-- Same symlink scenario, used to exhibit the cleanup-before-validation
ordering. -/
def wC5 : World :=
  { baseW with
    fs1 := fsLink
    chunks := [Chunk.data promptC, Chunk.data promptC, Chunk.data pkillL,
      Chunk.data promptC] }

/-- World in which `<mountpoint>/My Drive` is already a directory. -/
def wC6 : World :=
  { baseW with fs0 :=
      { fsNone with isdir := fun s => s == pjoin "/content/drive".data myDriveL } }

/-- Happy session script but the shell exits with status 1. -/
def wC7 : World :=
  { baseW with
    chunks :=
      [Chunk.data promptC, Chunk.data promptC, Chunk.data pkillL,
       Chunk.data promptC, Chunk.data promptC, Chunk.data successL,
       Chunk.data stoppedL, Chunk.eofMark]
    exitstatus := some 1 }

/-- Happy session script, used with a `~/`-prefixed mountpoint. -/
def wC9 : World :=
  { baseW with chunks :=
      [Chunk.data promptC, Chunk.data promptC, Chunk.data pkillL,
       Chunk.data promptC, Chunk.data promptC, Chunk.data successL,
       Chunk.data stoppedL, Chunk.eofMark] }

/-- World in which `/root/.config/Google` exists but is not a directory. -/
def wC10 : World :=
  { baseW with fs0 :=
      { fsNone with pexists := fun s => s == "/root/.config/Google".data } }

/-! ### Basic facts about the literal and regex searches -/

theorem isPrefixOf_rfl (l : List Char) : l.isPrefixOf l = true := by
  induction l with
  | nil => rfl
  | cons c t ih => simp [List.isPrefixOf, ih]

theorem isPrefixOf_append_self (l r : List Char) : l.isPrefixOf (l ++ r) = true := by
  induction l with
  | nil => simp [List.isPrefixOf]
  | cons c t ih => simp [List.isPrefixOf, ih]

theorem isPrefixOf_length_le (p l : List Char) (h : p.isPrefixOf l = true) :
    p.length ≤ l.length := by
  induction p generalizing l with
  | nil => simp
  | cons c t ih =>
    match l with
    | [] => simp [List.isPrefixOf] at h
    | b :: bs =>
      simp only [List.isPrefixOf, Bool.and_eq_true] at h
      simpa using ih bs h.2

theorem litIdx?_nil (pat : List Char) (h : pat ≠ []) : litIdx? [] pat = none := by
  match pat, h with
  | c :: t, _ => rfl

theorem litIdx?_self (p : List Char) : litIdx? p p = some 0 := by
  unfold litIdx?
  rw [isPrefixOf_rfl]
  rfl

theorem litIdx?_none_of_short (hay pat : List Char) (h : hay.length < pat.length) :
    litIdx? hay pat = none := by
  induction hay with
  | nil =>
    apply litIdx?_nil
    intro he
    simp [he] at h
  | cons c t ih =>
    unfold litIdx?
    have hpre : pat.isPrefixOf (c :: t) = false := by
      cases hp : pat.isPrefixOf (c :: t) with
      | false => rfl
      | true => exact absurd (isPrefixOf_length_le _ _ hp) (by omega)
    rw [hpre]
    simp only [Bool.false_eq_true, if_false]
    rw [ih (by simp at h ⊢; omega)]
    rfl

theorem dotStarCRLF_clean (u : List Char) (hu : ∀ c ∈ u, c ≠ '\n' ∧ c ≠ '\r') :
    dotStarCRLF (u ++ ['\r', '\n']) = some (u, []) := by
  induction u with
  | nil => rfl
  | cons c t ih =>
    have hc := hu c (by simp)
    have ht : ∀ x ∈ t, x ≠ '\n' ∧ x ≠ '\r' := fun x hx => hu x (by simp [hx])
    show dotStarCRLF (c :: (t ++ ['\r', '\n'])) = some (c :: t, [])
    rw [dotStarCRLF]
    rw [if_neg hc.1, if_neg (by simp [hc.2]), ih ht]
    rfl

theorem urlHere_line (u : List Char) (hu : ∀ c ∈ u, c ≠ '\n' ∧ c ≠ '\r') (i : Nat) :
    urlHere (urlLineOf u) i
      = some (i, urlPrefixL ++ u, i + urlPrefixL.length + u.length + 2) := by
  unfold urlHere urlLineOf
  rw [show urlPrefixL ++ u ++ ['\r', '\n'] = urlPrefixL ++ (u ++ ['\r', '\n']) from
    List.append_assoc _ _ _]
  rw [if_pos (isPrefixOf_append_self _ _), List.drop_left, dotStarCRLF_clean u hu]
  rfl

theorem urlSearch_of_here (hay : List Char) (i : Nat) (r : Nat × List Char × Nat)
    (h : urlHere hay i = some r) : urlSearch hay i = some r := by
  cases hay with
  | nil => rw [urlSearch]; exact h
  | cons c t => rw [urlSearch, h]

theorem urlSearch_line (u : List Char) (hu : ∀ c ∈ u, c ≠ '\n' ∧ c ≠ '\r') (i : Nat) :
    urlSearch (urlLineOf u) i
      = some (i, urlPrefixL ++ u, i + urlPrefixL.length + u.length + 2) :=
  urlSearch_of_here _ _ _ (urlHere_line u hu i)

theorem urlSearch_nil (i : Nat) : urlSearch [] i = none := rfl

/-! ### Reducing `pickEarliest` on explicit candidate lists -/

theorem pick1_none (a : Option (Nat × Nat × List Char)) (ha : a = none) :
    pickEarliest 0 [a] = none := by subst ha; rfl

theorem pick1_some (a : Option (Nat × Nat × List Char)) (x : Nat × Nat × List Char)
    (ha : a = some x) : pickEarliest 0 [a] = some (0, x) := by subst ha; rfl

theorem pick3_none (a b c : Option (Nat × Nat × List Char))
    (ha : a = none) (hb : b = none) (hc : c = none) :
    pickEarliest 0 [a, b, c] = none := by subst ha hb hc; rfl

theorem pick3_first (a b c : Option (Nat × Nat × List Char)) (x : Nat × Nat × List Char)
    (ha : a = some x) (hb : b = none) (hc : c = none) :
    pickEarliest 0 [a, b, c] = some (0, x) := by subst ha hb hc; rfl

theorem pick3_second (a b c : Option (Nat × Nat × List Char)) (x : Nat × Nat × List Char)
    (ha : a = none) (hb : b = some x) (hc : c = none) :
    pickEarliest 0 [a, b, c] = some (1, x) := by subst ha hb hc; rfl

theorem pick3_third (a b c : Option (Nat × Nat × List Char)) (x : Nat × Nat × List Char)
    (ha : a = none) (hb : b = none) (hc : c = some x) :
    pickEarliest 0 [a, b, c] = some (2, x) := by subst ha hb hc; rfl

/-! ### Reducing `patMatch?` -/

theorem patMatch?_lit_none (buffer s : List Char) (h : litIdx? buffer s = none) :
    patMatch? buffer (Pat.lit s) = none := by simp [patMatch?, h]

theorem patMatch?_lit_zero (s : List Char) :
    patMatch? s (Pat.lit s) = some (0, 0 + s.length, []) := by
  simp [patMatch?, litIdx?_self]

theorem patMatch?_url_none (buffer : List Char) (h : urlSearch buffer 0 = none) :
    patMatch? buffer Pat.url = none := by simp [patMatch?, h]

theorem patMatch?_nil_lit (s : List Char) (hs : s ≠ []) :
    patMatch? [] (Pat.lit s) = none := patMatch?_lit_none _ _ (litIdx?_nil s hs)

theorem patMatch?_nil_url : patMatch? [] Pat.url = none := rfl

/-! ### Behaviour of a single `expect` call -/

theorem expect_found (pats : List Pat) (buffer : List Char) (chunks : List Chunk)
    (i s e : Nat) (g : List Char)
    (h : pickEarliest 0 (pats.map (patMatch? buffer)) = some (i, s, e, g)) :
    expect pats buffer chunks = .matched i g (buffer.drop e) chunks := by
  cases chunks with
  | nil => simp only [expect, h, onPick]
  | cons ck rest =>
    cases ck with
    | data s2 => simp only [expect, h, onPick]
    | eofMark => simp only [expect, h, onPick]

theorem expect_pop (pats : List Pat) (buffer s : List Char) (rest : List Chunk)
    (h : pickEarliest 0 (pats.map (patMatch? buffer)) = none) :
    expect pats buffer (Chunk.data s :: rest) = expect pats (buffer ++ s) rest := by
  simp only [expect, h, onPick]

theorem expect_single_exact (p : List Char) (hp : p ≠ []) (rest : List Chunk) :
    expect [Pat.lit p] [] (Chunk.data p :: rest) = .matched 0 [] [] rest := by
  have h1 : pickEarliest 0 ([Pat.lit p].map (patMatch? [])) = none := by
    rw [List.map_cons, List.map_nil]
    exact pick1_none _ (patMatch?_nil_lit p hp)
  rw [expect_pop _ _ _ _ h1, List.nil_append]
  have h2 : pickEarliest 0 ([Pat.lit p].map (patMatch? p))
      = some (0, 0, 0 + p.length, []) := by
    rw [List.map_cons, List.map_nil]
    exact pick1_some _ _ (patMatch?_lit_zero p)
  rw [expect_found _ _ _ _ _ _ _ h2, Nat.zero_add, List.drop_length]

theorem expect_eof_exact (rest : List Chunk) :
    expect [Pat.eofPat] [] (Chunk.eofMark :: rest) = .matched 0 [] [] rest := rfl

theorem expect_await_success (p : List Char) (hp : p ≠ [])
    (hps : litIdx? successL p = none) (rest : List Chunk) :
    expect [Pat.lit successL, Pat.lit p, Pat.url] [] (Chunk.data successL :: rest)
      = .matched 0 [] [] rest := by
  have h1 : pickEarliest 0 ([Pat.lit successL, Pat.lit p, Pat.url].map (patMatch? []))
      = none := by
    simp only [List.map_cons, List.map_nil]
    exact pick3_none _ _ _ (patMatch?_nil_lit _ (by decide)) (patMatch?_nil_lit p hp)
      patMatch?_nil_url
  rw [expect_pop _ _ _ _ h1, List.nil_append]
  have h2 : pickEarliest 0
      ([Pat.lit successL, Pat.lit p, Pat.url].map (patMatch? successL))
      = some (0, 0, 0 + successL.length, []) := by
    simp only [List.map_cons, List.map_nil]
    exact pick3_first _ _ _ _ (patMatch?_lit_zero successL) (patMatch?_lit_none _ _ hps)
      (patMatch?_url_none _ (by decide))
  rw [expect_found _ _ _ _ _ _ _ h2, Nat.zero_add, List.drop_length]

theorem expect_await_prompt (p : List Char) (hp : p ≠ [])
    (hsp : litIdx? p successL = none) (hup : urlSearch p 0 = none) (rest : List Chunk) :
    expect [Pat.lit successL, Pat.lit p, Pat.url] [] (Chunk.data p :: rest)
      = .matched 1 [] [] rest := by
  have h1 : pickEarliest 0 ([Pat.lit successL, Pat.lit p, Pat.url].map (patMatch? []))
      = none := by
    simp only [List.map_cons, List.map_nil]
    exact pick3_none _ _ _ (patMatch?_nil_lit _ (by decide)) (patMatch?_nil_lit p hp)
      patMatch?_nil_url
  rw [expect_pop _ _ _ _ h1, List.nil_append]
  have h2 : pickEarliest 0 ([Pat.lit successL, Pat.lit p, Pat.url].map (patMatch? p))
      = some (1, 0, 0 + p.length, []) := by
    simp only [List.map_cons, List.map_nil]
    exact pick3_second _ _ _ _ (patMatch?_lit_none _ _ hsp) (patMatch?_lit_zero p)
      (patMatch?_url_none _ hup)
  rw [expect_found _ _ _ _ _ _ _ h2, Nat.zero_add, List.drop_length]

theorem expect_await_url (p u : List Char) (hp : p ≠ [])
    (hu : ∀ c ∈ u, c ≠ '\n' ∧ c ≠ '\r')
    (hs : litIdx? (urlLineOf u) successL = none)
    (hpp : litIdx? (urlLineOf u) p = none) (rest : List Chunk) :
    expect [Pat.lit successL, Pat.lit p, Pat.url] [] (Chunk.data (urlLineOf u) :: rest)
      = .matched 2 (urlPrefixL ++ u) [] rest := by
  have h1 : pickEarliest 0 ([Pat.lit successL, Pat.lit p, Pat.url].map (patMatch? []))
      = none := by
    simp only [List.map_cons, List.map_nil]
    exact pick3_none _ _ _ (patMatch?_nil_lit _ (by decide)) (patMatch?_nil_lit p hp)
      patMatch?_nil_url
  rw [expect_pop _ _ _ _ h1, List.nil_append]
  have h2 : pickEarliest 0
      ([Pat.lit successL, Pat.lit p, Pat.url].map (patMatch? (urlLineOf u)))
      = some (2, 0, 0 + urlPrefixL.length + u.length + 2, urlPrefixL ++ u) := by
    simp only [List.map_cons, List.map_nil]
    refine pick3_third _ _ _ _ (patMatch?_lit_none _ _ hs) (patMatch?_lit_none _ _ hpp) ?_
    simp [patMatch?, urlSearch_line u hu 0]
  rw [expect_found _ _ _ _ _ _ _ h2]
  have he : (0 + urlPrefixL.length + u.length + 2) = (urlLineOf u).length := by
    simp [urlLineOf]
    omega
  rw [he, List.drop_length]

/-! ### The await-outcome loop on the scripts the claims quantify over -/

theorem promptOf_ne_nil (w : World) : promptOf w ≠ [] := by
  simp [promptOf]

theorem awaitLoop_success (w : World) (fuel : Nat) (p : List Char) (k : Nat)
    (rest : List Chunk) (hf : 1 ≤ fuel) (hp : p ≠ [])
    (hps : litIdx? successL p = none) :
    awaitLoop w fuel p k [] (Chunk.data successL :: rest) = .done [] rest [] := by
  obtain ⟨f, rfl⟩ : ∃ f, fuel = f + 1 := ⟨fuel - 1, by omega⟩
  unfold awaitLoop
  rw [expect_await_success p hp hps]
  simp

theorem awaitLoop_promptFail (w : World) (fuel : Nat) (p : List Char) (k : Nat)
    (rest : List Chunk) (hf : 1 ≤ fuel) (hp : p ≠ [])
    (hsp : litIdx? p successL = none) (hup : urlSearch p 0 = none) :
    awaitLoop w fuel p k [] (Chunk.data p :: rest) = .failed [Ev.terminateForce] := by
  obtain ⟨f, rfl⟩ : ∃ f, fuel = f + 1 := ⟨fuel - 1, by omega⟩
  unfold awaitLoop
  rw [expect_await_prompt p hp hsp hup]
  simp

theorem awaitLoop_auth_then_success (w : World) (fuel : Nat) (p u : List Char)
    (k : Nat) (rest : List Chunk) (hf : 2 ≤ fuel) (hp : p ≠ [])
    (hu : ∀ c ∈ u, c ≠ '\n' ∧ c ≠ '\r')
    (hs : litIdx? (urlLineOf u) successL = none)
    (hpp : litIdx? (urlLineOf u) p = none) :
    awaitLoop w fuel p k [] (Chunk.data (urlLineOf u) :: Chunk.data successL :: rest)
      = .done [] rest [Ev.getpass ((urlPrefixL ++ u) ++ authSuffixL),
          Ev.send (w.secrets.getD k [] ++ ['\n'])] := by
  obtain ⟨f, rfl⟩ : ∃ f, fuel = f + 1 + 1 := ⟨fuel - 2, by omega⟩
  have hlen0 : successL.length < urlPrefixL.length + authSuffixL.length := by decide
  have hnp : (urlPrefixL ++ u) ++ authSuffixL ≠ [] := by
    simp [urlPrefixL, authSuffixL]
  have hnps : litIdx? successL ((urlPrefixL ++ u) ++ authSuffixL) = none := by
    apply litIdx?_none_of_short
    simp only [List.length_append]
    omega
  unfold awaitLoop
  rw [expect_await_url p u hp hu hs hpp]
  simp only []
  rw [awaitLoop_success w (f + 1) ((urlPrefixL ++ u) ++ authSuffixL) (k + 1) rest
    (by omega) hnp hnps]
  simp

/-! ### The four protocol phases on the scripts the claims quantify over -/

theorem phaseSetup_ok (w : World) (p m : List Char) (rest : List Chunk)
    (hp : p ≠ [])
    (h1 : w.chunks = Chunk.data p :: Chunk.data p :: Chunk.data pkillL ::
      Chunk.data p :: rest)
    (hL : w.fs1.islink m = false)
    (hD : (w.fs1.isdir m && w.fs1.nonemptyDir m) = false)
    (hE : (!w.fs1.isdir m && w.fs1.pexists m) = false) :
    phaseSetup w p m = .inr (([], rest),
      [Ev.sendline (ps1Cmd p), Ev.sendline (umountCmd m)]) := by
  unfold phaseSetup
  rw [h1, expect_single_exact p hp]
  simp only []
  rw [expect_single_exact p hp]
  simp only []
  rw [expect_single_exact pkillL (by decide)]
  simp only []
  rw [expect_single_exact p hp]
  simp [hL, hD, hE]

theorem phaseSetup_valfail (w : World) (p m : List Char) (rest : List Chunk)
    (hp : p ≠ [])
    (h1 : w.chunks = Chunk.data p :: Chunk.data p :: Chunk.data pkillL ::
      Chunk.data p :: rest)
    (hviol : w.fs1.islink m = true
      ∨ (w.fs1.isdir m = true ∧ w.fs1.nonemptyDir m = true)
      ∨ (w.fs1.isdir m = false ∧ w.fs1.pexists m = true)) :
    ∃ msg, msg ∈ [symlinkMsg, filesMsg, notDirMsg] ∧
      phaseSetup w p m = .inl (.valueError msg,
        [Ev.sendline (ps1Cmd p), Ev.sendline (umountCmd m), Ev.terminateForce]) := by
  unfold phaseSetup
  rw [h1, expect_single_exact p hp]
  simp only []
  rw [expect_single_exact p hp]
  simp only []
  rw [expect_single_exact pkillL (by decide)]
  simp only []
  rw [expect_single_exact p hp]
  by_cases hl : w.fs1.islink m = true
  · exact ⟨symlinkMsg, by simp, by simp [hl]⟩
  · have hl' : w.fs1.islink m = false := by simpa using hl
    rcases hviol with h | ⟨h2, h3⟩ | ⟨h2, h3⟩
    · exact absurd h hl
    · exact ⟨filesMsg, by simp, by simp [hl', h2, h3]⟩
    · exact ⟨notDirMsg, by simp, by simp [hl', h2, h3]⟩

theorem phaseLaunch_ok (p m dd inet : List Char) (rest : List Chunk) (hp : p ≠ []) :
    phaseLaunch p m dd inet ([], Chunk.data p :: rest)
      = .inr (([], rest),
        [Ev.sendline (watcherCmd m), Ev.sendline (driveCmd dd inet m)]) := by
  unfold phaseLaunch
  rw [show (([], Chunk.data p :: rest) : List Char × List Chunk).1 = [] from rfl,
    show (([], Chunk.data p :: rest) : List Char × List Chunk).2
      = Chunk.data p :: rest from rfl]
  rw [expect_single_exact p hp]
  simp

theorem phaseFinish_ok (w : World) (m : List Char) (rest : List Chunk)
    (hA : w.exitAlive = false) (hS : w.exitstatus = some 0) :
    phaseFinish w m ([], Chunk.data stoppedL :: Chunk.eofMark :: rest)
      = (.ok, [Ev.sendcontrol 'z', Ev.sendline bgCmd, Ev.print (mountedMsg m)]) := by
  unfold phaseFinish
  rw [show (([], Chunk.data stoppedL :: Chunk.eofMark :: rest) :
      List Char × List Chunk).1 = [] from rfl,
    show (([], Chunk.data stoppedL :: Chunk.eofMark :: rest) :
      List Char × List Chunk).2 = Chunk.data stoppedL :: Chunk.eofMark :: rest from rfl]
  rw [expect_single_exact stoppedL (by decide)]
  simp only []
  rw [expect_eof_exact]
  simp [hA, hS]

theorem phaseFinish_badStatus (w : World) (m : List Char) (rest : List Chunk)
    (hA : w.exitAlive = false) (hS : w.exitstatus ≠ some 0) :
    phaseFinish w m ([], Chunk.data stoppedL :: Chunk.eofMark :: rest)
      = (.assertStatusFail, [Ev.sendcontrol 'z', Ev.sendline bgCmd]) := by
  unfold phaseFinish
  rw [show (([], Chunk.data stoppedL :: Chunk.eofMark :: rest) :
      List Char × List Chunk).1 = [] from rfl,
    show (([], Chunk.data stoppedL :: Chunk.eofMark :: rest) :
      List Char × List Chunk).2 = Chunk.data stoppedL :: Chunk.eofMark :: rest from rfl]
  rw [expect_single_exact stoppedL (by decide)]
  simp only []
  rw [expect_eof_exact]
  simp [hA, hS]

/-! ### The whole session on the scripts the claims quantify over -/

theorem sessionRun_finish (w : World) (p m dd inet : List Char) (rest : List Chunk)
    (hp : p ≠ []) (hps : litIdx? successL p = none)
    (h1 : w.chunks = Chunk.data p :: Chunk.data p :: Chunk.data pkillL ::
      Chunk.data p :: Chunk.data p :: Chunk.data successL :: Chunk.data stoppedL ::
      Chunk.eofMark :: rest)
    (hL : w.fs1.islink m = false)
    (hD : (w.fs1.isdir m && w.fs1.nonemptyDir m) = false)
    (hE : (!w.fs1.isdir m && w.fs1.pexists m) = false) :
    sessionRun w p m dd inet
      = ((phaseFinish w m ([], Chunk.data stoppedL :: Chunk.eofMark :: rest)).1,
         [Ev.sendline (ps1Cmd p), Ev.sendline (umountCmd m),
          Ev.sendline (watcherCmd m), Ev.sendline (driveCmd dd inet m)]
           ++ (phaseFinish w m ([], Chunk.data stoppedL :: Chunk.eofMark :: rest)).2) := by
  unfold sessionRun
  rw [phaseSetup_ok w p m _ hp h1 hL hD hE]
  simp only []
  rw [phaseLaunch_ok p m dd inet _ hp]
  simp only []
  rw [awaitLoop_success]
  · simp
  · omega
  · exact hp
  · exact hps

theorem sessionRun_authFinish (w : World) (p m dd inet u : List Char)
    (rest : List Chunk)
    (hp : p ≠ [])
    (hu : ∀ c ∈ u, c ≠ '\n' ∧ c ≠ '\r')
    (hs : litIdx? (urlLineOf u) successL = none)
    (hpp : litIdx? (urlLineOf u) p = none)
    (h1 : w.chunks = Chunk.data p :: Chunk.data p :: Chunk.data pkillL ::
      Chunk.data p :: Chunk.data p :: Chunk.data (urlLineOf u) ::
      Chunk.data successL :: Chunk.data stoppedL :: Chunk.eofMark :: rest)
    (hL : w.fs1.islink m = false)
    (hD : (w.fs1.isdir m && w.fs1.nonemptyDir m) = false)
    (hE : (!w.fs1.isdir m && w.fs1.pexists m) = false) :
    sessionRun w p m dd inet
      = ((phaseFinish w m ([], Chunk.data stoppedL :: Chunk.eofMark :: rest)).1,
         [Ev.sendline (ps1Cmd p), Ev.sendline (umountCmd m),
          Ev.sendline (watcherCmd m), Ev.sendline (driveCmd dd inet m),
          Ev.getpass ((urlPrefixL ++ u) ++ authSuffixL),
          Ev.send (w.secrets.getD 0 [] ++ ['\n'])]
           ++ (phaseFinish w m ([], Chunk.data stoppedL :: Chunk.eofMark :: rest)).2) := by
  unfold sessionRun
  rw [phaseSetup_ok w p m _ hp h1 hL hD hE]
  simp only []
  rw [phaseLaunch_ok p m dd inet _ hp]
  simp only []
  rw [awaitLoop_auth_then_success w _ p u 0 (Chunk.data stoppedL :: Chunk.eofMark :: rest)]
  · simp
  · simp [chunksFuel]
    omega
  · exact hp
  · exact hu
  · exact hs
  · exact hpp

theorem sessionRun_promptFail (w : World) (p m dd inet : List Char)
    (rest : List Chunk)
    (hp : p ≠ []) (hsp : litIdx? p successL = none) (hup : urlSearch p 0 = none)
    (h1 : w.chunks = Chunk.data p :: Chunk.data p :: Chunk.data pkillL ::
      Chunk.data p :: Chunk.data p :: Chunk.data p :: rest)
    (hL : w.fs1.islink m = false)
    (hD : (w.fs1.isdir m && w.fs1.nonemptyDir m) = false)
    (hE : (!w.fs1.isdir m && w.fs1.pexists m) = false) :
    sessionRun w p m dd inet
      = (.valueError mountFailedMsg,
         [Ev.sendline (ps1Cmd p), Ev.sendline (umountCmd m),
          Ev.sendline (watcherCmd m), Ev.sendline (driveCmd dd inet m),
          Ev.terminateForce]) := by
  unfold sessionRun
  rw [phaseSetup_ok w p m _ hp h1 hL hD hE]
  simp only []
  rw [phaseLaunch_ok p m dd inet _ hp]
  simp only []
  rw [awaitLoop_promptFail]
  · simp
  · omega
  · exact hp
  · exact hsp
  · exact hup

theorem sessionRun_valfail (w : World) (p m dd inet : List Char) (rest : List Chunk)
    (hp : p ≠ [])
    (h1 : w.chunks = Chunk.data p :: Chunk.data p :: Chunk.data pkillL ::
      Chunk.data p :: rest)
    (hviol : w.fs1.islink m = true
      ∨ (w.fs1.isdir m = true ∧ w.fs1.nonemptyDir m = true)
      ∨ (w.fs1.isdir m = false ∧ w.fs1.pexists m = true)) :
    ∃ msg, msg ∈ [symlinkMsg, filesMsg, notDirMsg] ∧
      sessionRun w p m dd inet = (.valueError msg,
        [Ev.sendline (ps1Cmd p), Ev.sendline (umountCmd m), Ev.terminateForce]) := by
  obtain ⟨msg, hmem, heq⟩ := phaseSetup_valfail w p m rest hp h1 hviol
  refine ⟨msg, hmem, ?_⟩
  unfold sessionRun
  rw [heq]

/-! ### The mount body on the scripts the claims quantify over -/

theorem mountBody_run (w : World) (m : List Char) (rest : List Chunk)
    (debug force : Bool)
    (hAM : w.fs0.isdir (pjoin m myDriveL) = false)
    (hRoot : w.rootDir.length ≤ 1)
    (hCfg : ((w.fs0.pexists (cfgDirPlain w) || w.makedirsFails)
      && !w.fs0.isdir (cfgDirPlain w)) = false)
    (hps : litIdx? successL (promptOf w) = none)
    (h1 : w.chunks = Chunk.data (promptOf w) :: Chunk.data (promptOf w) ::
      Chunk.data pkillL :: Chunk.data (promptOf w) :: Chunk.data (promptOf w) ::
      Chunk.data successL :: Chunk.data stoppedL :: Chunk.eofMark :: rest)
    (hL : w.fs1.islink m = false)
    (hD : (w.fs1.isdir m && w.fs1.nonemptyDir m) = false)
    (hE : (!w.fs1.isdir m && w.fs1.pexists m) = false) :
    mountBody w debug m force
      = ((phaseFinish w m ([], Chunk.data stoppedL :: Chunk.eofMark :: rest)).1,
         [Ev.makedirs (cfgDirPlain w), Ev.spawn (spawnEnvPlain w)]
           ++ (if debug then [Ev.setLogRead] else [])
           ++ [Ev.sendline (ps1Cmd (promptOf w)), Ev.sendline (umountCmd m),
               Ev.sendline (watcherCmd m),
               Ev.sendline (driveCmd (pjoin w.rootDir "opt/google/drive".data)
                 "IPV4_ONLY".data m)]
           ++ (phaseFinish w m ([], Chunk.data stoppedL :: Chunk.eofMark :: rest)).2) := by
  have hp : promptOf w ≠ [] := promptOf_ne_nil w
  have hgt : ¬ (w.rootDir.length > 1) := by omega
  unfold mountBody
  rw [hAM]
  simp only [Bool.and_false, Bool.false_eq_true, if_false, if_neg hgt]
  rw [sessionRun_finish w (promptOf w) m _ _ rest hp hps h1 hL hD hE]
  simp_all [cfgDirPlain, spawnEnvPlain]

theorem mountBody_authRun (w : World) (m u : List Char) (rest : List Chunk)
    (debug force : Bool)
    (hAM : w.fs0.isdir (pjoin m myDriveL) = false)
    (hRoot : w.rootDir.length ≤ 1)
    (hCfg : ((w.fs0.pexists (cfgDirPlain w) || w.makedirsFails)
      && !w.fs0.isdir (cfgDirPlain w)) = false)
    (hu : ∀ c ∈ u, c ≠ '\n' ∧ c ≠ '\r')
    (hs : litIdx? (urlLineOf u) successL = none)
    (hpp : litIdx? (urlLineOf u) (promptOf w) = none)
    (h1 : w.chunks = Chunk.data (promptOf w) :: Chunk.data (promptOf w) ::
      Chunk.data pkillL :: Chunk.data (promptOf w) :: Chunk.data (promptOf w) ::
      Chunk.data (urlLineOf u) :: Chunk.data successL :: Chunk.data stoppedL ::
      Chunk.eofMark :: rest)
    (hL : w.fs1.islink m = false)
    (hD : (w.fs1.isdir m && w.fs1.nonemptyDir m) = false)
    (hE : (!w.fs1.isdir m && w.fs1.pexists m) = false) :
    mountBody w debug m force
      = ((phaseFinish w m ([], Chunk.data stoppedL :: Chunk.eofMark :: rest)).1,
         [Ev.makedirs (cfgDirPlain w), Ev.spawn (spawnEnvPlain w)]
           ++ (if debug then [Ev.setLogRead] else [])
           ++ [Ev.sendline (ps1Cmd (promptOf w)), Ev.sendline (umountCmd m),
               Ev.sendline (watcherCmd m),
               Ev.sendline (driveCmd (pjoin w.rootDir "opt/google/drive".data)
                 "IPV4_ONLY".data m),
               Ev.getpass ((urlPrefixL ++ u) ++ authSuffixL),
               Ev.send (w.secrets.getD 0 [] ++ ['\n'])]
           ++ (phaseFinish w m ([], Chunk.data stoppedL :: Chunk.eofMark :: rest)).2) := by
  have hp : promptOf w ≠ [] := promptOf_ne_nil w
  have hgt : ¬ (w.rootDir.length > 1) := by omega
  unfold mountBody
  rw [hAM]
  simp only [Bool.and_false, Bool.false_eq_true, if_false, if_neg hgt]
  rw [sessionRun_authFinish w (promptOf w) m _ _ u rest hp hu hs hpp h1 hL hD hE]
  simp_all [cfgDirPlain, spawnEnvPlain]

theorem mountBody_promptFail (w : World) (m : List Char) (rest : List Chunk)
    (debug force : Bool)
    (hAM : w.fs0.isdir (pjoin m myDriveL) = false)
    (hRoot : w.rootDir.length ≤ 1)
    (hCfg : ((w.fs0.pexists (cfgDirPlain w) || w.makedirsFails)
      && !w.fs0.isdir (cfgDirPlain w)) = false)
    (hsp : litIdx? (promptOf w) successL = none)
    (hup : urlSearch (promptOf w) 0 = none)
    (h1 : w.chunks = Chunk.data (promptOf w) :: Chunk.data (promptOf w) ::
      Chunk.data pkillL :: Chunk.data (promptOf w) :: Chunk.data (promptOf w) ::
      Chunk.data (promptOf w) :: rest)
    (hL : w.fs1.islink m = false)
    (hD : (w.fs1.isdir m && w.fs1.nonemptyDir m) = false)
    (hE : (!w.fs1.isdir m && w.fs1.pexists m) = false) :
    mountBody w debug m force
      = (.valueError mountFailedMsg,
         [Ev.makedirs (cfgDirPlain w), Ev.spawn (spawnEnvPlain w)]
           ++ (if debug then [Ev.setLogRead] else [])
           ++ [Ev.sendline (ps1Cmd (promptOf w)), Ev.sendline (umountCmd m),
               Ev.sendline (watcherCmd m),
               Ev.sendline (driveCmd (pjoin w.rootDir "opt/google/drive".data)
                 "IPV4_ONLY".data m),
               Ev.terminateForce]) := by
  have hp : promptOf w ≠ [] := promptOf_ne_nil w
  have hgt : ¬ (w.rootDir.length > 1) := by omega
  unfold mountBody
  rw [hAM]
  simp only [Bool.and_false, Bool.false_eq_true, if_false, if_neg hgt]
  rw [sessionRun_promptFail w (promptOf w) m _ _ rest hp hsp hup h1 hL hD hE]
  simp_all [cfgDirPlain, spawnEnvPlain]

theorem mountBody_valfail (w : World) (m : List Char) (rest : List Chunk)
    (debug force : Bool)
    (hAM : w.fs0.isdir (pjoin m myDriveL) = false)
    (hRoot : w.rootDir.length ≤ 1)
    (hCfg : ((w.fs0.pexists (cfgDirPlain w) || w.makedirsFails)
      && !w.fs0.isdir (cfgDirPlain w)) = false)
    (h1 : w.chunks = Chunk.data (promptOf w) :: Chunk.data (promptOf w) ::
      Chunk.data pkillL :: Chunk.data (promptOf w) :: rest)
    (hviol : w.fs1.islink m = true
      ∨ (w.fs1.isdir m = true ∧ w.fs1.nonemptyDir m = true)
      ∨ (w.fs1.isdir m = false ∧ w.fs1.pexists m = true)) :
    ∃ msg, msg ∈ [symlinkMsg, filesMsg, notDirMsg] ∧
      mountBody w debug m force = (.valueError msg,
        [Ev.makedirs (cfgDirPlain w), Ev.spawn (spawnEnvPlain w)]
          ++ (if debug then [Ev.setLogRead] else [])
          ++ [Ev.sendline (ps1Cmd (promptOf w)), Ev.sendline (umountCmd m),
              Ev.terminateForce]) := by
  have hp : promptOf w ≠ [] := promptOf_ne_nil w
  have hgt : ¬ (w.rootDir.length > 1) := by omega
  obtain ⟨msg, hmem, heq⟩ := sessionRun_valfail w (promptOf w) m
    (pjoin w.rootDir "opt/google/drive".data) "IPV4_ONLY".data rest hp h1 hviol
  refine ⟨msg, hmem, ?_⟩
  unfold mountBody
  rw [hAM]
  simp only [Bool.and_false, Bool.false_eq_true, if_false, if_neg hgt]
  rw [heq]
  simp_all [cfgDirPlain, spawnEnvPlain]

/-! ### Home expansion -/

theorem rstripSlash_eq (l : List Char) (h : l.getLast? ≠ some '/') :
    rstripSlash l = l := by
  unfold rstripSlash
  cases hr : l.reverse with
  | nil =>
    have hl : l = [] := by simpa using congrArg List.reverse hr
    simp [hl]
  | cons c t =>
    have hc : c ≠ '/' := by
      intro he
      apply h
      have hg : l.getLast? = l.reverse.head? := by
        conv_lhs => rw [← List.reverse_reverse l]
        rw [List.getLast?_reverse]
      rw [hg, hr, he]
      rfl
    rw [List.dropWhile_cons, if_neg (by simp [hc]), ← hr, List.reverse_reverse]

theorem expanduserL_tilde (home r : List Char) (h1 : home ≠ [])
    (h2 : home.getLast? ≠ some '/') :
    expanduserL home ('~' :: '/' :: r) = home ++ '/' :: r := by
  unfold expanduserL
  rw [rstripSlash_eq home h2]
  simp [h1]

/-! ### The claims -/

/-- C1: in every run of `mount` in which the session emits the success
marker immediately after the mount-binary launch command (no authorization
event), the protocol completes: after the prompt-setting, cleanup, watcher
and launch commands it sends the suspend control signal, then the
background-disown-exit compound command, in exactly that order, waits for
end of input, and returns the success outcome whose printed message names
the (home-expanded) mountpoint. The conclusion exhibits the entire run:
result and the exact ordered event trace. -/
theorem claim1_success_run (w : World) (mp m : List Char) (rest : List Chunk)
    (force : Bool)
    (hm : expanduserL w.envHome mp = m)
    (hAM : w.fs0.isdir (pjoin m myDriveL) = false)
    (hRoot : w.rootDir.length ≤ 1)
    (hCfg : ((w.fs0.pexists (cfgDirPlain w) || w.makedirsFails)
      && !w.fs0.isdir (cfgDirPlain w)) = false)
    (hps : litIdx? successL (promptOf w) = none)
    (h1 : w.chunks = Chunk.data (promptOf w) :: Chunk.data (promptOf w) ::
      Chunk.data pkillL :: Chunk.data (promptOf w) :: Chunk.data (promptOf w) ::
      Chunk.data successL :: Chunk.data stoppedL :: Chunk.eofMark :: rest)
    (hL : w.fs1.islink m = false)
    (hD : (w.fs1.isdir m && w.fs1.nonemptyDir m) = false)
    (hE : (!w.fs1.isdir m && w.fs1.pexists m) = false)
    (hA : w.exitAlive = false) (hS : w.exitstatus = some 0) :
    mount w false mp force
      = (.ok, [Ev.makedirs (cfgDirPlain w), Ev.spawn (spawnEnvPlain w),
          Ev.sendline (ps1Cmd (promptOf w)), Ev.sendline (umountCmd m),
          Ev.sendline (watcherCmd m),
          Ev.sendline (driveCmd (pjoin w.rootDir "opt/google/drive".data)
            "IPV4_ONLY".data m),
          Ev.sendcontrol 'z', Ev.sendline bgCmd, Ev.print (mountedMsg m)]) := by
  unfold mount
  rw [hm, mountBody_run w m rest false force hAM hRoot hCfg hps h1 hL hD hE,
    phaseFinish_ok w m rest hA hS]
  simp

/-- Witness for C1: a concrete world and mountpoint realizing every
hypothesis of `claim1_success_run`, with the conclusion evaluated. -/
theorem claim1_success_run_witness :
    mount wC1 false "/content/drive".data false
      = (.ok, [Ev.makedirs (cfgDirPlain wC1), Ev.spawn (spawnEnvPlain wC1),
          Ev.sendline (ps1Cmd (promptOf wC1)),
          Ev.sendline (umountCmd "/content/drive".data),
          Ev.sendline (watcherCmd "/content/drive".data),
          Ev.sendline (driveCmd (pjoin wC1.rootDir "opt/google/drive".data)
            "IPV4_ONLY".data "/content/drive".data),
          Ev.sendcontrol 'z', Ev.sendline bgCmd,
          Ev.print (mountedMsg "/content/drive".data)]) :=
  claim1_success_run wC1 "/content/drive".data "/content/drive".data [] false
    (by decide) (by decide) (by decide) (by decide) (by decide) (by decide)
    (by decide) (by decide) (by decide) (by decide) (by decide)

/-- C2: in every run in which the session emits exactly one
authorization-URL line and then, after the secret is supplied, the success
marker, the driver invokes the secret-prompt collaborator exactly once
with a message embedding the captured URL, sends the returned secret
followed by a newline to the session, and proceeds to the success path.
The conclusion exhibits the whole trace: one `getpass` event whose message
is the captured group followed by the authorization-code prompt text, one
`send` of the secret plus `\n`, then the unchanged success tail. -/
theorem claim2_auth_flow (w : World) (mp m u : List Char) (rest : List Chunk)
    (force : Bool)
    (hm : expanduserL w.envHome mp = m)
    (hAM : w.fs0.isdir (pjoin m myDriveL) = false)
    (hRoot : w.rootDir.length ≤ 1)
    (hCfg : ((w.fs0.pexists (cfgDirPlain w) || w.makedirsFails)
      && !w.fs0.isdir (cfgDirPlain w)) = false)
    (hu : ∀ c ∈ u, c ≠ '\n' ∧ c ≠ '\r')
    (hs : litIdx? (urlLineOf u) successL = none)
    (hpp : litIdx? (urlLineOf u) (promptOf w) = none)
    (h1 : w.chunks = Chunk.data (promptOf w) :: Chunk.data (promptOf w) ::
      Chunk.data pkillL :: Chunk.data (promptOf w) :: Chunk.data (promptOf w) ::
      Chunk.data (urlLineOf u) :: Chunk.data successL :: Chunk.data stoppedL ::
      Chunk.eofMark :: rest)
    (hL : w.fs1.islink m = false)
    (hD : (w.fs1.isdir m && w.fs1.nonemptyDir m) = false)
    (hE : (!w.fs1.isdir m && w.fs1.pexists m) = false)
    (hA : w.exitAlive = false) (hS : w.exitstatus = some 0) :
    mount w false mp force
      = (.ok, [Ev.makedirs (cfgDirPlain w), Ev.spawn (spawnEnvPlain w),
          Ev.sendline (ps1Cmd (promptOf w)), Ev.sendline (umountCmd m),
          Ev.sendline (watcherCmd m),
          Ev.sendline (driveCmd (pjoin w.rootDir "opt/google/drive".data)
            "IPV4_ONLY".data m),
          Ev.getpass ((urlPrefixL ++ u) ++ authSuffixL),
          Ev.send (w.secrets.getD 0 [] ++ ['\n']),
          Ev.sendcontrol 'z', Ev.sendline bgCmd, Ev.print (mountedMsg m)]) := by
  unfold mount
  rw [hm, mountBody_authRun w m u rest false force hAM hRoot hCfg hu hs hpp h1 hL hD hE,
    phaseFinish_ok w m rest hA hS]
  simp

/-- Witness for C2 at a concrete world, URL and secret. -/
theorem claim2_auth_flow_witness :
    mount wC2 false "/content/drive".data false
      = (.ok, [Ev.makedirs (cfgDirPlain wC2), Ev.spawn (spawnEnvPlain wC2),
          Ev.sendline (ps1Cmd (promptOf wC2)),
          Ev.sendline (umountCmd "/content/drive".data),
          Ev.sendline (watcherCmd "/content/drive".data),
          Ev.sendline (driveCmd (pjoin wC2.rootDir "opt/google/drive".data)
            "IPV4_ONLY".data "/content/drive".data),
          Ev.getpass ((urlPrefixL ++ urlC) ++ authSuffixL),
          Ev.send (wC2.secrets.getD 0 [] ++ ['\n']),
          Ev.sendcontrol 'z', Ev.sendline bgCmd,
          Ev.print (mountedMsg "/content/drive".data)]) :=
  claim2_auth_flow wC2 "/content/drive".data "/content/drive".data urlC [] false
    (by decide) (by decide) (by decide) (by decide) (by decide) (by decide)
    (by decide) (by decide) (by decide) (by decide) (by decide) (by decide)
    (by decide)

/-- C3 is false as stated: in this run the shell prompt marker reappears
during the await-outcome phase (after the launch command and before any
success marker), yet `mount` neither fails with the MountFailed error nor
terminates the session. The reappearance happens after an authorization
exchange, and line 133 has reassigned the `prompt` variable to the getpass
message, so the prompt marker is no longer among the watched patterns: the
run ends in a timeout error with no forced termination. -/
theorem claim3_counterexample :
    (mount wC3x false "/content/drive".data false).1 = Res.timeoutErr
      ∧ Ev.terminateForce ∉ (mount wC3x false "/content/drive".data false).2 := by
  decide

/-- C3 (amended): in every run in which the shell prompt marker reappears
during the await-outcome phase before any authorization event has been
processed, `mount` force-terminates the session and fails with the
`mount failed` ValueError (the MountFailed error); the trace ends with the
forced termination, so the session is not left running. -/
theorem claim3_prompt_crash (w : World) (mp m : List Char) (rest : List Chunk)
    (force : Bool)
    (hm : expanduserL w.envHome mp = m)
    (hAM : w.fs0.isdir (pjoin m myDriveL) = false)
    (hRoot : w.rootDir.length ≤ 1)
    (hCfg : ((w.fs0.pexists (cfgDirPlain w) || w.makedirsFails)
      && !w.fs0.isdir (cfgDirPlain w)) = false)
    (hsp : litIdx? (promptOf w) successL = none)
    (hup : urlSearch (promptOf w) 0 = none)
    (h1 : w.chunks = Chunk.data (promptOf w) :: Chunk.data (promptOf w) ::
      Chunk.data pkillL :: Chunk.data (promptOf w) :: Chunk.data (promptOf w) ::
      Chunk.data (promptOf w) :: rest)
    (hL : w.fs1.islink m = false)
    (hD : (w.fs1.isdir m && w.fs1.nonemptyDir m) = false)
    (hE : (!w.fs1.isdir m && w.fs1.pexists m) = false) :
    mount w false mp force
      = (.valueError mountFailedMsg,
         [Ev.makedirs (cfgDirPlain w), Ev.spawn (spawnEnvPlain w),
          Ev.sendline (ps1Cmd (promptOf w)), Ev.sendline (umountCmd m),
          Ev.sendline (watcherCmd m),
          Ev.sendline (driveCmd (pjoin w.rootDir "opt/google/drive".data)
            "IPV4_ONLY".data m),
          Ev.terminateForce]) := by
  unfold mount
  rw [hm, mountBody_promptFail w m rest false force hAM hRoot hCfg hsp hup h1 hL hD hE]
  simp

/-- Witness for the amended C3 at a concrete world. -/
theorem claim3_prompt_crash_witness :
    mount wC3a false "/content/drive".data false
      = (.valueError mountFailedMsg,
         [Ev.makedirs (cfgDirPlain wC3a), Ev.spawn (spawnEnvPlain wC3a),
          Ev.sendline (ps1Cmd (promptOf wC3a)),
          Ev.sendline (umountCmd "/content/drive".data),
          Ev.sendline (watcherCmd "/content/drive".data),
          Ev.sendline (driveCmd (pjoin wC3a.rootDir "opt/google/drive".data)
            "IPV4_ONLY".data "/content/drive".data),
          Ev.terminateForce]) :=
  claim3_prompt_crash wC3a "/content/drive".data "/content/drive".data [] false
    (by decide) (by decide) (by decide) (by decide) (by decide) (by decide)
    (by decide) (by decide) (by decide) (by decide)

/-- C4: for every mountpoint that is (at validation time) a symlink, or an
existing non-empty directory, or exists but is not a directory, `mount`
fails with the corresponding ValidationError ValueError, the session is
force-terminated, and the mount binary is never launched: the whole trace
consists of the spawn, the prompt-setting command, the cleanup command and
the forced termination — no watcher and no launch command. -/
theorem claim4_validation (w : World) (mp m : List Char) (rest : List Chunk)
    (force : Bool)
    (hm : expanduserL w.envHome mp = m)
    (hAM : w.fs0.isdir (pjoin m myDriveL) = false)
    (hRoot : w.rootDir.length ≤ 1)
    (hCfg : ((w.fs0.pexists (cfgDirPlain w) || w.makedirsFails)
      && !w.fs0.isdir (cfgDirPlain w)) = false)
    (h1 : w.chunks = Chunk.data (promptOf w) :: Chunk.data (promptOf w) ::
      Chunk.data pkillL :: Chunk.data (promptOf w) :: rest)
    (hviol : w.fs1.islink m = true
      ∨ (w.fs1.isdir m = true ∧ w.fs1.nonemptyDir m = true)
      ∨ (w.fs1.isdir m = false ∧ w.fs1.pexists m = true)) :
    ∃ msg, msg ∈ [symlinkMsg, filesMsg, notDirMsg] ∧
      mount w false mp force = (.valueError msg,
        [Ev.makedirs (cfgDirPlain w), Ev.spawn (spawnEnvPlain w),
         Ev.sendline (ps1Cmd (promptOf w)), Ev.sendline (umountCmd m),
         Ev.terminateForce]) := by
  obtain ⟨msg, hmem, heq⟩ :=
    mountBody_valfail w m rest false force hAM hRoot hCfg h1 hviol
  refine ⟨msg, hmem, ?_⟩
  unfold mount
  rw [hm, heq]
  simp

/-- Witness for C4: a concrete symlink mountpoint. -/
theorem claim4_validation_witness :
    ∃ msg, msg ∈ [symlinkMsg, filesMsg, notDirMsg] ∧
      mount wC4 false "/content/drive".data false = (.valueError msg,
        [Ev.makedirs (cfgDirPlain wC4), Ev.spawn (spawnEnvPlain wC4),
         Ev.sendline (ps1Cmd (promptOf wC4)),
         Ev.sendline (umountCmd "/content/drive".data),
         Ev.terminateForce]) :=
  claim4_validation wC4 "/content/drive".data "/content/drive".data [] false
    (by decide) (by decide) (by decide) (by decide) (by decide) (by decide)

/-- C5 is false as stated: this run fails with the symlink ValidationError,
yet the destructive force-unmount/pkill compound command was already
issued to the session before the validation error was raised — the trace
of the failing run contains that cleanup command. -/
theorem claim5_counterexample :
    (mount wC5 false "/content/drive".data false).1 = Res.valueError symlinkMsg
      ∧ Ev.sendline (umountCmd "/content/drive".data)
          ∈ (mount wC5 false "/content/drive".data false).2 := by
  decide

/-- C5 (amended): in every validation-failure run the validation error is
raised only after the destructive cleanup command (force-unmount plus
pkill) has been sent; it is still raised before the mount binary is
launched and before the success watcher is installed, and the session is
force-terminated. Stated over the run: the result is a ValidationError,
the cleanup command and the forced termination occur in the trace, and
neither the watcher command nor the launch command ever does. -/
theorem claim5_error_after_cleanup (w : World) (mp m : List Char)
    (rest : List Chunk) (force : Bool)
    (hm : expanduserL w.envHome mp = m)
    (hAM : w.fs0.isdir (pjoin m myDriveL) = false)
    (hRoot : w.rootDir.length ≤ 1)
    (hCfg : ((w.fs0.pexists (cfgDirPlain w) || w.makedirsFails)
      && !w.fs0.isdir (cfgDirPlain w)) = false)
    (h1 : w.chunks = Chunk.data (promptOf w) :: Chunk.data (promptOf w) ::
      Chunk.data pkillL :: Chunk.data (promptOf w) :: rest)
    (hviol : w.fs1.islink m = true
      ∨ (w.fs1.isdir m = true ∧ w.fs1.nonemptyDir m = true)
      ∨ (w.fs1.isdir m = false ∧ w.fs1.pexists m = true)) :
    (∃ msg, msg ∈ [symlinkMsg, filesMsg, notDirMsg] ∧
        (mount w false mp force).1 = .valueError msg)
      ∧ Ev.sendline (umountCmd m) ∈ (mount w false mp force).2
      ∧ Ev.terminateForce ∈ (mount w false mp force).2
      ∧ Ev.sendline (watcherCmd m) ∉ (mount w false mp force).2
      ∧ Ev.sendline (driveCmd (pjoin w.rootDir "opt/google/drive".data)
          "IPV4_ONLY".data m) ∉ (mount w false mp force).2 := by
  obtain ⟨msg, hmem, heq⟩ :=
    mountBody_valfail w m rest false force hAM hRoot hCfg h1 hviol
  unfold mount
  rw [hm, heq]
  have hw1 : watcherCmd m ≠ ps1Cmd (promptOf w) := by
    intro hcon
    have h2 := congrArg (fun l => l.reverse.head?) hcon
    simp [watcherCmd, ps1Cmd] at h2
  have hw2 : watcherCmd m ≠ umountCmd m := by
    intro hcon
    have h2 := congrArg (fun l => l.reverse.head?) hcon
    simp [watcherCmd, umountCmd] at h2
  have hd1 : driveCmd (pjoin w.rootDir "opt/google/drive".data) "IPV4_ONLY".data m
      ≠ ps1Cmd (promptOf w) := by
    intro hcon
    have h2 := congrArg (fun l => l.reverse.head?) hcon
    simp [driveCmd, ps1Cmd] at h2
  have hd2 : driveCmd (pjoin w.rootDir "opt/google/drive".data) "IPV4_ONLY".data m
      ≠ umountCmd m := by
    intro hcon
    have h2 := congrArg (fun l => l.reverse.head?) hcon
    simp [driveCmd, umountCmd] at h2
  exact ⟨⟨msg, hmem, by simp⟩, by simp, by simp,
    by simp [hw1, hw2], by simp [hd1, hd2]⟩

/-- Witness for the amended C5 at a concrete symlink mountpoint. -/
theorem claim5_error_after_cleanup_witness :
    (∃ msg, msg ∈ [symlinkMsg, filesMsg, notDirMsg] ∧
        (mount wC5 false "/content/drive".data false).1 = .valueError msg)
      ∧ Ev.sendline (umountCmd "/content/drive".data)
          ∈ (mount wC5 false "/content/drive".data false).2
      ∧ Ev.terminateForce ∈ (mount wC5 false "/content/drive".data false).2
      ∧ Ev.sendline (watcherCmd "/content/drive".data)
          ∉ (mount wC5 false "/content/drive".data false).2
      ∧ Ev.sendline (driveCmd (pjoin wC5.rootDir "opt/google/drive".data)
          "IPV4_ONLY".data "/content/drive".data)
          ∉ (mount wC5 false "/content/drive".data false).2 :=
  claim5_error_after_cleanup wC5 "/content/drive".data "/content/drive".data [] false
    (by decide) (by decide) (by decide) (by decide) (by decide) (by decide)

/-- C6: for every request whose (home-expanded) mountpoint already
contains a `My Drive` directory and whose force-remount flag is false,
`mount` is a no-op: the trace holds no spawn, no directory creation and no
command — only the idempotent already-mounted message naming the expanded
mountpoint — and the run returns normally. -/
theorem claim6_already_mounted (w : World) (mp m : List Char) (debug : Bool)
    (hm : expanduserL w.envHome mp = m)
    (h : w.fs0.isdir (pjoin m myDriveL) = true) :
    mount w debug mp false = (.alreadyMounted, [Ev.print (alreadyMsg m)]) := by
  unfold mount mountBody
  rw [hm]
  simp [h]

/-- Witness for C6 at a concrete already-mounted world. -/
theorem claim6_already_mounted_witness :
    mount wC6 false "/content/drive".data false
      = (.alreadyMounted, [Ev.print (alreadyMsg "/content/drive".data)]) :=
  claim6_already_mounted wC6 "/content/drive".data "/content/drive".data false
    (by decide) (by decide)

/-- C7: in every run that completes the protocol through backgrounding and
shell exit, if the shell's final exit status is not zero then `mount`
surfaces the postcondition violation as an error (the exit-status
assertion failure) rather than silently succeeding: the run's result is
the assertion failure and no success message is printed. -/
theorem claim7_bad_exit (w : World) (mp m : List Char) (rest : List Chunk)
    (force : Bool) (es : Option Int)
    (hm : expanduserL w.envHome mp = m)
    (hAM : w.fs0.isdir (pjoin m myDriveL) = false)
    (hRoot : w.rootDir.length ≤ 1)
    (hCfg : ((w.fs0.pexists (cfgDirPlain w) || w.makedirsFails)
      && !w.fs0.isdir (cfgDirPlain w)) = false)
    (hps : litIdx? successL (promptOf w) = none)
    (h1 : w.chunks = Chunk.data (promptOf w) :: Chunk.data (promptOf w) ::
      Chunk.data pkillL :: Chunk.data (promptOf w) :: Chunk.data (promptOf w) ::
      Chunk.data successL :: Chunk.data stoppedL :: Chunk.eofMark :: rest)
    (hL : w.fs1.islink m = false)
    (hD : (w.fs1.isdir m && w.fs1.nonemptyDir m) = false)
    (hE : (!w.fs1.isdir m && w.fs1.pexists m) = false)
    (hA : w.exitAlive = false) (hS : w.exitstatus = es) (hnz : es ≠ some 0) :
    mount w false mp force
      = (.assertStatusFail,
         [Ev.makedirs (cfgDirPlain w), Ev.spawn (spawnEnvPlain w),
          Ev.sendline (ps1Cmd (promptOf w)), Ev.sendline (umountCmd m),
          Ev.sendline (watcherCmd m),
          Ev.sendline (driveCmd (pjoin w.rootDir "opt/google/drive".data)
            "IPV4_ONLY".data m),
          Ev.sendcontrol 'z', Ev.sendline bgCmd]) := by
  unfold mount
  rw [hm, mountBody_run w m rest false force hAM hRoot hCfg hps h1 hL hD hE,
    phaseFinish_badStatus w m rest hA (by rw [hS]; exact hnz)]
  simp

/-- Witness for C7: the happy script with exit status 1. -/
theorem claim7_bad_exit_witness :
    mount wC7 false "/content/drive".data false
      = (.assertStatusFail,
         [Ev.makedirs (cfgDirPlain wC7), Ev.spawn (spawnEnvPlain wC7),
          Ev.sendline (ps1Cmd (promptOf wC7)),
          Ev.sendline (umountCmd "/content/drive".data),
          Ev.sendline (watcherCmd "/content/drive".data),
          Ev.sendline (driveCmd (pjoin wC7.rootDir "opt/google/drive".data)
            "IPV4_ONLY".data "/content/drive".data),
          Ev.sendcontrol 'z', Ev.sendline bgCmd]) :=
  claim7_bad_exit wC7 "/content/drive".data "/content/drive".data [] false (some 1)
    (by decide) (by decide) (by decide) (by decide) (by decide) (by decide)
    (by decide) (by decide) (by decide) (by decide) (by decide) (by decide)

/-- C8: the debug flag only adds observability and never alters protocol
behaviour: for every world, mountpoint and force flag, the run with the
flag on has the same result as the run with it off, and the same event
trace once the debug echo hook marker is removed — the same commands are
sent and the same outcome is produced. -/
theorem claim8_debug_invariant (w : World) (mp : List Char) (force : Bool) :
    (mount w true mp force).1 = (mount w false mp force).1
      ∧ stripLog (mount w true mp force).2 = stripLog (mount w false mp force).2 := by
  unfold mount mountBody
  cases hb : (!force && w.fs0.isdir (pjoin (expanduserL w.envHome mp) myDriveL)) with
  | true => simp [hb]
  | false =>
    simp only [hb, Bool.false_eq_true, if_false]
    refine ⟨?_, ?_⟩
    · split <;> split <;> simp
    · split <;> split <;> simp [stripLog, isLogEv]

/-- C9: `mount` expands a leading `~/` in the mountpoint before any other
step: for a home directory without trailing slash, the expansion equation
holds, and a full successful run on the `~/`-prefixed path sends every
command (cleanup, watcher, launch) on the expanded path and prints the
success message naming the expanded path rather than the path as given. -/
theorem claim9_expanduser (w : World) (r m : List Char) (rest : List Chunk)
    (force : Bool)
    (hh1 : w.envHome ≠ []) (hh2 : w.envHome.getLast? ≠ some '/')
    (hm : w.envHome ++ '/' :: r = m)
    (hAM : w.fs0.isdir (pjoin m myDriveL) = false)
    (hRoot : w.rootDir.length ≤ 1)
    (hCfg : ((w.fs0.pexists (cfgDirPlain w) || w.makedirsFails)
      && !w.fs0.isdir (cfgDirPlain w)) = false)
    (hps : litIdx? successL (promptOf w) = none)
    (h1 : w.chunks = Chunk.data (promptOf w) :: Chunk.data (promptOf w) ::
      Chunk.data pkillL :: Chunk.data (promptOf w) :: Chunk.data (promptOf w) ::
      Chunk.data successL :: Chunk.data stoppedL :: Chunk.eofMark :: rest)
    (hL : w.fs1.islink m = false)
    (hD : (w.fs1.isdir m && w.fs1.nonemptyDir m) = false)
    (hE : (!w.fs1.isdir m && w.fs1.pexists m) = false)
    (hA : w.exitAlive = false) (hS : w.exitstatus = some 0) :
    expanduserL w.envHome ('~' :: '/' :: r) = m
      ∧ mount w false ('~' :: '/' :: r) force
        = (.ok, [Ev.makedirs (cfgDirPlain w), Ev.spawn (spawnEnvPlain w),
            Ev.sendline (ps1Cmd (promptOf w)), Ev.sendline (umountCmd m),
            Ev.sendline (watcherCmd m),
            Ev.sendline (driveCmd (pjoin w.rootDir "opt/google/drive".data)
              "IPV4_ONLY".data m),
            Ev.sendcontrol 'z', Ev.sendline bgCmd, Ev.print (mountedMsg m)]) := by
  have hexp : expanduserL w.envHome ('~' :: '/' :: r) = m := by
    rw [← hm]
    exact expanduserL_tilde w.envHome r hh1 hh2
  refine ⟨hexp, ?_⟩
  unfold mount
  rw [hexp, mountBody_run w m rest false force hAM hRoot hCfg hps h1 hL hD hE,
    phaseFinish_ok w m rest hA hS]
  simp

/-- Witness for C9: mounting `~/gdrive` with HOME `/root` operates on
`/root/gdrive` throughout. -/
theorem claim9_expanduser_witness :
    expanduserL wC9.envHome ('~' :: '/' :: "gdrive".data) = "/root/gdrive".data
      ∧ mount wC9 false ('~' :: '/' :: "gdrive".data) false
        = (.ok, [Ev.makedirs (cfgDirPlain wC9), Ev.spawn (spawnEnvPlain wC9),
            Ev.sendline (ps1Cmd (promptOf wC9)),
            Ev.sendline (umountCmd "/root/gdrive".data),
            Ev.sendline (watcherCmd "/root/gdrive".data),
            Ev.sendline (driveCmd (pjoin wC9.rootDir "opt/google/drive".data)
              "IPV4_ONLY".data "/root/gdrive".data),
            Ev.sendcontrol 'z', Ev.sendline bgCmd,
            Ev.print (mountedMsg "/root/gdrive".data)]) :=
  claim9_expanduser wC9 "gdrive".data "/root/gdrive".data [] false
    (by decide) (by decide) (by decide) (by decide) (by decide) (by decide)
    (by decide) (by decide) (by decide) (by decide) (by decide) (by decide)
    (by decide)

/-- C10: before spawning any process, `mount` attempts to create the
configuration directory `<home>/.config/Google`; when a non-directory
entry already exists at that path, it fails with the ValueError stating
the path must be a directory if present, without spawning a shell or
sending any command: the whole trace is the directory-creation attempt. -/
theorem claim10_config_dir (w : World) (mp m : List Char) (debug force : Bool)
    (hm : expanduserL w.envHome mp = m)
    (hAM : w.fs0.isdir (pjoin m myDriveL) = false)
    (hRoot : w.rootDir.length ≤ 1)
    (hEx : w.fs0.pexists (cfgDirPlain w) = true)
    (hDir : w.fs0.isdir (cfgDirPlain w) = false) :
    mount w debug mp force
      = (.valueError (cfgMsg (cfgDirPlain w)), [Ev.makedirs (cfgDirPlain w)]) := by
  unfold mount mountBody
  rw [hm]
  have hgt : ¬ (w.rootDir.length > 1) := by omega
  rw [hAM]
  simp only [Bool.and_false, Bool.false_eq_true, if_false, if_neg hgt]
  simp_all [cfgDirPlain]

/-- Witness for C10: `/root/.config/Google` exists as a non-directory. -/
theorem claim10_config_dir_witness :
    mount wC10 false "/content/drive".data false
      = (.valueError (cfgMsg (cfgDirPlain wC10)), [Ev.makedirs (cfgDirPlain wC10)]) :=
  claim10_config_dir wC10 "/content/drive".data "/content/drive".data false false
    (by decide) (by decide) (by decide) (by decide) (by decide)

end GDrive
